import Mathlib

/-!
# HyprSetup: a verification development

A shallow embedding of `hyprsetup.go` (the interactive session controller
`model.Update` / `model.View` and the four task-runner actions) together with
the properties of its specification.

Conventions of the embedding

* Go `string` and `[]byte` values are modelled by `String`.
* Go `int` is modelled by `Int`; the only arithmetic on it (`cursor--` under
  `cursor > 0`, `cursor++` under `cursor < len-1`, `len-1`) cannot overflow.
* A Go `error` is `Option String`: `none` is `nil`, `some t` is a non-nil error
  whose `Error()` text is `t`.
* A run-time panic (index out of range) is the `none` result of `Update`.
* Operating-system calls are explicit: the functions take a `World` (oracles
  for the outcome of each call, the file system, and a trace of the calls made)
  and return the new `World`.
-/

namespace HyprSetup

/-- Go `error` values: `none` is `nil`, `some t` has `Error()` text `t`. -/
abbrev error := Option String

/-- The `model` struct. -/
structure model where
  choices : List String
  cursor : Int
  selected : String
  quitting : Bool
  logs : List String
  progress : String
  isProcessing : Bool
  deriving DecidableEq, Repr

/-- The `statusMsg` struct. -/
structure statusMsg where
  status : String
  err : error
  deriving DecidableEq, Repr

/-- The commands `Update` can return: `nil`, `tea.Quit`, or one of the four
task-runner closures (`saveLogsToFile` captures the model it was given). -/
inductive Cmd where
  | nil
  | Quit
  | installPackagesOneByOne
  | configureHyprland
  | troubleshootHyprland
  | saveLogsToFile (m : model)
  deriving DecidableEq, Repr

/-- The messages `Update` receives (`tea.Msg`): a key press, carrying the value
of `msg.String()`; a `statusMsg`; or any other message (window size, the `nil`
of the initial tick, ...). -/
inductive Msg where
  | KeyMsg (key : String)
  | statusMsg (msg : statusMsg)
  | other
  deriving DecidableEq, Repr

/-- The zero-valued model with the five menu entries. -/
def initialModel : model :=
  { choices := ["Install Hyprland", "Configure Hyprland", "Troubleshoot", "Save Logs", "Exit"]
    cursor := 0
    selected := ""
    quitting := false
    logs := []
    progress := ""
    isProcessing := false }

/-- The slice index expression `s[i]` for an `int` index: `none` is the
index-out-of-range panic. -/
def index (s : List String) (i : Int) : Option String :=
  if 0 ≤ i ∧ i < (s.length : Int) then s.get? i.toNat else none

/-- The `switch m.selected` of the `"enter"` case; `m` already carries the new
`selected` and `isProcessing`.  When no case matches, control falls through to
the final `return m, nil`. -/
def dispatch (m : model) : model × Cmd :=
  if m.selected = "Install Hyprland" then (m, Cmd.installPackagesOneByOne)
  else if m.selected = "Configure Hyprland" then (m, Cmd.configureHyprland)
  else if m.selected = "Troubleshoot" then (m, Cmd.troubleshootHyprland)
  else if m.selected = "Save Logs" then (m, Cmd.saveLogsToFile m)
  else if m.selected = "Exit" then ({ m with quitting := true }, Cmd.Quit)
  else (m, Cmd.nil)

/-- The text of `fmt.Sprintf("Error: %v", err)` for a non-nil error whose
`Error()` text is `t`. -/
def errorLine (t : String) : String := "Error: " ++ t

/-- The method `model.Update`.  The result `none` is a run-time panic. -/
def Update (m : model) (msg : Msg) : Option (model × Cmd) :=
  match msg with
  | Msg.KeyMsg key =>
    if key = "ctrl+c" ∨ key = "q" then some (m, Cmd.Quit)
    else if key = "up" then
      some (if m.cursor > 0 then { m with cursor := m.cursor - 1 } else m, Cmd.nil)
    else if key = "down" then
      some (if m.cursor < (m.choices.length : Int) - 1 then { m with cursor := m.cursor + 1 } else m,
        Cmd.nil)
    else if key = "enter" then
      match index m.choices m.cursor with
      | none => none
      | some c => some (dispatch { m with selected := c, isProcessing := true })
    else some (m, Cmd.nil)
  | Msg.statusMsg msg =>
    let m1 := { m with logs := m.logs ++ [msg.status], isProcessing := false }
    match msg.err with
    | some t => some ({ m1 with logs := m1.logs ++ [errorLine t] }, Cmd.nil)
    | none => some (m1, Cmd.nil)
  | Msg.other => some (m, Cmd.nil)

/-- The event loop: `Update` applied to a sequence of messages, the returned
commands aside (whatever they deliver arrives as a later message). -/
def run (m : model) : List Msg → Option model
  | [] => some m
  | e :: es =>
    match Update m e with
    | none => none
    | some (m1, _) => run m1 es

/-- The menu loop of `model.View`: one line per choice from index `i` on, the
line at the cursor marked with `>`. -/
def menuText (cursor : Int) : List String → Int → String
  | [], _ => ""
  | choice :: rest, i =>
    (if cursor = i then ">" else " ") ++ " " ++ choice ++ "\n" ++ menuText cursor rest (i + 1)

/-- The string `s` that `model.View` builds before the outer padding style is
applied.  `logStyle` is the rendering of the log style. -/
def viewText (logStyle : String → String) (m : model) : String :=
  let s1 := "Hyprland Setup Assistant for FreeBSD\n\n" ++ menuText m.cursor m.choices 0
  let s2 :=
    if m.selected ≠ "" then
      s1 ++ ("\nSelected: " ++ m.selected ++ "\n")
        ++ (if m.isProcessing then
              "Processing" ++ String.mk (List.replicate (m.progress.utf8ByteSize % 4) '.') ++ "\n"
            else "")
        ++ String.join (m.logs.map fun log => logStyle (log ++ "\n"))
    else s1
  if m.quitting then s2 ++ "\nExiting..." else s2

/-- The method `model.View`; the two `lipgloss` renderings are parameters. -/
def View (logStyle padStyle : String → String) (m : model) : String :=
  padStyle (viewText logStyle m)

/-! ## The library functions the program calls

`fmt.Errorf` is called with the captured command output as its *format* and no
operands, so the model of the formatter is the loop of `(*pp).doPrintf` in the
Go distribution's `fmt/print.go`, with the operand list `a` empty
(`len(a) = 0`): the fast path for simple verbs needs `argNum < len(a)` and is
never taken, and every verb other than `%` lacks its operand.  The format is a
list of characters; the byte positions the Go code keeps are the suffixes that
remain to be read. -/

namespace fmt

/-- The function `tooLarge`. -/
def tooLarge (x : Nat) : Bool := x > 1000000

/-- The loop of `parsenum` over the segment `s[start:end]`, from the state
`(num, isnum)`: the number read, whether a digit was seen, and what is left of
the segment.  On overflow all of the segment is consumed (`newi = end`). -/
def parsenumLoop : List Char → Nat → Bool → Nat × Bool × List Char
  | [], num, isnum => (num, isnum, [])
  | c :: cs, num, isnum =>
    if '0' ≤ c ∧ c ≤ '9' then
      if tooLarge num then (0, false, [])
      else parsenumLoop cs (num * 10 + (c.toNat - '0'.toNat)) true
    else (num, isnum, c :: cs)

/-- The function `parsenum` on the segment `s[start:end]`. -/
def parsenum (seg : List Char) : Nat × Bool × List Char :=
  parsenumLoop seg 0 false

/-- The length in bytes of the UTF-8 encoding of a list of characters. -/
def byteLen (l : List Char) : Nat := (l.map Char.utf8Size).sum

/-- The function `parseArgNumber` on `format[i:]`, which starts with `[`: the
index, what is left of the format after the `wid` bytes consumed, and `ok`. -/
def parseArgNumber (format : List Char) : Int × List Char × Bool :=
  if byteLen format < 3 then (0, format.drop 1, false)
  else
    let body := format.drop 1
    let seg := body.takeWhile (fun c => c != ']')
    match body.dropWhile (fun c => c != ']') with
    | [] => (0, format.drop 1, false)
    | _ :: after =>
      let (width, ok, left) := parsenum seg
      if !ok || !left.isEmpty then (0, after, false)
      else ((width : Int) - 1, after, true)

/-- The method `argNumber` with `numArgs` operands: the new operand number, what
is left of the format, `found`, and whether `p.goodArgNum` was cleared. -/
def argNumber (argNum : Nat) (format : List Char) (numArgs : Nat) :
    Nat × List Char × Bool × Bool :=
  match format with
  | '[' :: _ =>
    let (idx, left, ok) := parseArgNumber format
    if ok ∧ 0 ≤ idx ∧ idx < (numArgs : Int) then (idx.toNat, left, true, false)
    else (argNum, left, ok, true)
  | _ => (argNum, format, false, false)

/-- The flag loop `simpleFormat` with no operand left: the flag characters are
skipped, and the first other character ends the loop. -/
def skipFlags : List Char → List Char
  | [] => []
  | c :: cs =>
    if c = '#' ∨ c = '0' ∨ c = '+' ∨ c = '-' ∨ c = ' ' then skipFlags cs else c :: cs

/-- The width of a directive with no operands: the text written, what is left
of the format, `afterIndex`, and whether `p.goodArgNum` was cleared. -/
def width (format : List Char) (afterIndex : Bool) : List Char × List Char × Bool × Bool :=
  match format with
  | '*' :: rest => ("%!(BADWIDTH)".toList, rest, false, false)
  | _ =>
    let (_, widPresent, rest) := parsenum format
    ([], rest, afterIndex, afterIndex && widPresent)

/-- The precision of a directive with no operands, with the same results. -/
def precision (argNum : Nat) (format : List Char) (afterIndex : Bool) :
    List Char × List Char × Bool × Bool :=
  match format with
  | '.' :: rest =>
    let (_, g, found, bad) := argNumber argNum rest 0
    match g with
    | '*' :: rest1 => ("%!(BADPREC)".toList, rest1, false, afterIndex || bad)
    | _ =>
      let (_, _, rest1) := parsenum g
      ([], rest1, found, afterIndex || bad)
  | _ => ([], format, afterIndex, false)

/-- The verb of a directive with no operands: the text written and what is left
of the format (`none` after the `break` of a missing verb). -/
def verb (format : List Char) (goodArgNum : Bool) : List Char × Option (List Char) :=
  match format with
  | [] => ("%!(NOVERB)".toList, none)
  | v :: rest =>
    if v = '%' then (['%'], some rest)
    else if !goodArgNum then ("%!".toList ++ [v] ++ "(BADINDEX)".toList, some rest)
    else ("%!".toList ++ [v] ++ "(MISSING)".toList, some rest)

/-- One directive, read after its `%`, with no operands: the flags, the
argument index, the width, the precision, a second look for an argument index,
and the verb.  The result is the text written and what is left of the format.
With no operands the operand number stays 0. -/
def directive (format : List Char) : List Char × Option (List Char) :=
  let f0 := skipFlags format
  let (argNum, f1, afterIndex1, bad1) := argNumber 0 f0 0
  let (w2, f2, afterIndex2, bad2) := width f1 afterIndex1
  let (w3, f3, afterIndex3, bad3) := precision argNum f2 afterIndex2
  let (f4, bad4) :=
    if !afterIndex3 then
      let (_, g, _, bad) := argNumber argNum f3 0
      (g, bad)
    else (f3, false)
  let (w5, left) := verb f4 (!(bad1 || bad2 || bad3 || bad4))
  (w2 ++ w3 ++ w5, left)

/-- The loop `formatLoop` of `doPrintf` with no operands.  Every iteration
reads at least one character, so `fuel` above the length of the format is
never used up. -/
def formatLoop : Nat → List Char → List Char
  | 0, _ => []
  | fuel + 1, format =>
    let text := format.takeWhile (fun c => c != '%')
    match format.dropWhile (fun c => c != '%') with
    | [] => text
    | _ :: rest =>
      match directive rest with
      | (written, none) => text ++ written
      | (written, some left) => text ++ written ++ formatLoop fuel left

/-- The text of `fmt.Sprintf(format)`, no operands. -/
def Sprintf (format : String) : String :=
  String.mk (formatLoop (format.length + 1) format.toList)

/-- The call `fmt.Errorf(format)`, no operands: there is no `%w` operand to wrap,
so the result is `errors.New` of the formatted text, a non-nil error. -/
def Errorf (format : String) : error := some (Sprintf format)

end fmt

namespace filepath

/-- The elements of a path between its separators. -/
def elements : List Char → List (List Char)
  | [] => [[]]
  | c :: cs =>
    if c = '/' then [] :: elements cs
    else
      match elements cs with
      | [] => [[c]]
      | e :: es => (c :: e) :: es

/-- One element in the loop of `Clean`; `out` holds the elements kept so far,
the last one first.  Empty and `.` elements are dropped; `..` removes the last
kept element when there is one to backtrack over, is dropped at the root, and is
kept otherwise. -/
def cleanStep (rooted : Bool) (out : List (List Char)) (e : List Char) : List (List Char) :=
  if e = [] ∨ e = ['.'] then out
  else if e = ['.', '.'] then
    match out with
    | top :: rest => if top = ['.', '.'] then e :: out else rest
    | [] => if rooted then [] else [e]
  else e :: out

/-- The function `filepath.Clean` (Unix: no volume name, separator `/`). -/
def Clean (path : String) : String :=
  if path = "" then "."
  else
    let rooted := path.toList.head? = some '/'
    let out := ((elements path.toList).foldl (cleanStep rooted) []).reverse
    let body := "/".intercalate (out.map String.mk)
    if rooted then "/" ++ body
    else if body = "" then "." else body

/-- The function `filepath.Join`: the leading empty elements are dropped and the
rest, joined with the separator, is cleaned. -/
def Join (elem : List String) : String :=
  match elem.dropWhile (fun e => e == "") with
  | [] => ""
  | rest => Clean ("/".intercalate rest)

end filepath

/-! ## The operating system

Each call the task runner makes is recorded in the trace of the `World`.  Whether
a call succeeds is decided by an oracle of the `World`; what a successful call
does to the file system is fixed.  A failed call leaves the file system as it
was (what a call that fails half-way leaves behind is not modelled). -/

/-- The two results of `exec.Cmd.CombinedOutput`. -/
structure CmdResult where
  out : String
  err : error
  deriving DecidableEq, Repr

/-- The calls recorded in the trace. -/
inductive Effect where
  | CombinedOutput (argv : List String)
  | Sleep (milliseconds : Nat)
  | Printf (text : String)
  | UserHomeDir
  | MkdirAll (path : String)
  | ReadFile (path : String)
  | WriteFile (path : String) (data : String)
  | LookPath (file : String)
  | Getenv (key : String)
  | TempDir
  | OpenFile (path : String)
  | WriteString (path : String) (text : String)
  | Close (path : String)
  | Setenv (key : String) (value : String)
  | Stat (path : String)
  | Mkdir (path : String)
  | LogPrintln (text : String)
  deriving DecidableEq, Repr

/-- The environment of the process: the oracles, the files and directories,
and the trace of the calls made so far (oldest first). -/
structure World where
  combinedOutput : List String → CmdResult
  userHomeDir : String × error
  mkdirAllErr : String → error
  readFileErr : String → error
  writeFileErr : String → error
  lookPath : String → String × error
  getenv : String → String
  tempDir : String
  openFileErr : String → error
  writeStringErr : String → String → error
  statErr : String → error
  mkdirErr : String → error
  files : String → Option String
  dirs : String → Bool
  trace : List Effect

/-- The world after one more recorded call. -/
def World.record (w : World) (e : Effect) : World :=
  { w with trace := w.trace ++ [e] }

/-- The path itself and the directories above it: the non-empty initial
segments that end before a separator. -/
def pathAndParents (path : String) : List String :=
  (((List.range (path.length + 1)).filter fun n =>
      0 < n ∧ (n = path.length ∨ path.toList.get? n = some '/')).map
    fun n => String.mk (path.toList.take n))

namespace exec

/-- The call `exec.Command(argv...).CombinedOutput()`. -/
def CombinedOutput (argv : List String) (w : World) : CmdResult × World :=
  (w.combinedOutput argv, w.record (Effect.CombinedOutput argv))

/-- The call `exec.LookPath(file)`. -/
def LookPath (file : String) (w : World) : (String × error) × World :=
  (w.lookPath file, w.record (Effect.LookPath file))

end exec

namespace time

/-- The call `time.Sleep` of a number of milliseconds. -/
def Sleep (milliseconds : Nat) (w : World) : World :=
  w.record (Effect.Sleep milliseconds)

end time

namespace os

/-- The call `os.UserHomeDir()`. -/
def UserHomeDir (w : World) : (String × error) × World :=
  (w.userHomeDir, w.record Effect.UserHomeDir)

/-- The call `os.MkdirAll(path, perm)`: on success the path and the directories
above it exist. -/
def MkdirAll (path : String) (w : World) : error × World :=
  let w1 := w.record (Effect.MkdirAll path)
  match w.mkdirAllErr path with
  | some e => (some e, w1)
  | none => (none, { w1 with dirs := fun p => decide (p ∈ pathAndParents path) || w.dirs p })

/-- The call `os.ReadFile(path)`: the content of the file, or an error when the
file is absent or the read fails. -/
def ReadFile (path : String) (w : World) : (String × error) × World :=
  let w1 := w.record (Effect.ReadFile path)
  match w.readFileErr path with
  | some e => (("", some e), w1)
  | none =>
    match w.files path with
    | some data => ((data, none), w1)
    | none => (("", some ("open " ++ path ++ ": no such file or directory")), w1)

/-- The call `os.WriteFile(path, data, perm)`: on success the file holds exactly
`data`, created or truncated. -/
def WriteFile (path data : String) (w : World) : error × World :=
  let w1 := w.record (Effect.WriteFile path data)
  match w.writeFileErr path with
  | some e => (some e, w1)
  | none => (none, { w1 with files := fun p => if p = path then some data else w.files p })

/-- The call `os.Getenv(key)`. -/
def Getenv (key : String) (w : World) : String × World :=
  (w.getenv key, w.record (Effect.Getenv key))

/-- The call `os.TempDir()`. -/
def TempDir (w : World) : String × World :=
  (w.tempDir, w.record Effect.TempDir)

/-- The call `os.OpenFile(path, O_APPEND|O_CREATE|O_WRONLY, perm)`: on success
the file exists, empty when it was absent. -/
def OpenFile (path : String) (w : World) : error × World :=
  let w1 := w.record (Effect.OpenFile path)
  match w.openFileErr path with
  | some e => (some e, w1)
  | none =>
    (none, { w1 with files := fun p => if p = path then some ((w.files p).getD "") else w.files p })

/-- The call `file.WriteString(text)` on a file opened for appending at `path`:
on success the text is added at the end of the file. -/
def WriteString (path text : String) (w : World) : error × World :=
  let w1 := w.record (Effect.WriteString path text)
  match w.writeStringErr path text with
  | some e => (some e, w1)
  | none =>
    (none, { w1 with files := fun p =>
      if p = path then some ((w.files p).getD "" ++ text) else w.files p })

/-- The call `file.Close()`. -/
def Close (path : String) (w : World) : World :=
  w.record (Effect.Close path)

/-- The call `os.Setenv(key, value)`: an empty key, a key with `=` or a NUL
byte, and a value with a NUL byte are refused; otherwise the variable holds the
value from then on. -/
def Setenv (key value : String) (w : World) : error × World :=
  let w1 := w.record (Effect.Setenv key value)
  if key = "" ∨ '=' ∈ key.toList ∨ Char.ofNat 0 ∈ key.toList ∨ Char.ofNat 0 ∈ value.toList then
    (some "setenv: invalid argument", w1)
  else (none, { w1 with getenv := fun k => if k = key then value else w.getenv k })

/-- The call `os.Stat(path)`, as far as the program looks at it: the error, and
whether `os.IsNotExist` holds of it (the path is neither a directory nor a
file). -/
def Stat (path : String) (w : World) : (error × Bool) × World :=
  let w1 := w.record (Effect.Stat path)
  match w.statErr path with
  | some e => ((some e, false), w1)
  | none =>
    if w.dirs path || (w.files path).isSome then ((none, false), w1)
    else ((some ("stat " ++ path ++ ": no such file or directory"), true), w1)

/-- The call `os.Mkdir(path, perm)`: on success the directory exists. -/
def Mkdir (path : String) (w : World) : error × World :=
  let w1 := w.record (Effect.Mkdir path)
  match w.mkdirErr path with
  | some e => (some e, w1)
  | none => (none, { w1 with dirs := fun p => decide (p = path) || w.dirs p })

end os

/-- The call `log.Println`, whose line goes to the standard error. -/
def log.Println (text : String) (w : World) : World :=
  w.record (Effect.LogPrintln text)

/-- The call `fmt.Printf`, whose text goes to the standard output. -/
def fmt.Printf (text : String) (w : World) : World :=
  w.record (Effect.Printf text)

/-! ## The task runner -/

/-- The package list of `installPackagesOneByOne`. -/
def pkgs : List String :=
  ["hyprland", "wlroots", "xwayland", "waybar", "grim", "jq", "wofi", "alacritty", "pam_xdg",
    "hyprpaper"]

/-- The argument vector of the install command of one package. -/
def installArgv (pkg : String) : List String := ["sudo", "pkg", "install", "-y", pkg]

/-- The `for _, pkg := range pkgs` loop of `installPackagesOneByOne`: `some` is
the message of the early `return`. -/
def installLoop : List String → World → Option statusMsg × World
  | [], w => (none, w)
  | pkg :: rest, w =>
    let (r, w1) := exec.CombinedOutput (installArgv pkg) w
    match r.err with
    | some _ => (some { status := "Failed to install " ++ pkg, err := fmt.Errorf r.out }, w1)
    | none =>
      let w2 := time.Sleep 500 w1
      let w3 := fmt.Printf ("Successfully installed " ++ pkg ++ "\n") w2
      installLoop rest w3

/-- The second half of `installPackagesOneByOne`: the copy of `hyprland.conf`.
The error of `os.UserHomeDir` is ignored. -/
def copyConfig (w : World) : statusMsg × World :=
  let ((homeDir, _), w1) := os.UserHomeDir w
  let configDir := filepath.Join [homeDir, ".config", "hypr"]
  match os.MkdirAll configDir w1 with
  | (some e, w2) => ({ status := "Failed to create hypr configuration directory", err := some e }, w2)
  | (none, w2) =>
    let confPath := "hyprland.conf"
    let destPath := filepath.Join [configDir, "hyprland.conf"]
    match os.ReadFile confPath w2 with
    | ((_, some e), w3) => ({ status := "Failed to read hyprland.conf", err := some e }, w3)
    | ((input, none), w3) =>
      match os.WriteFile destPath input w3 with
      | (some e, w4) => ({ status := "Failed to write hyprland.conf", err := some e }, w4)
      | (none, w4) =>
        ({ status := "Hyprland installation and configuration completed successfully.",
           err := none }, w4)

/-- The closure returned by `installPackagesOneByOne`. -/
def installPackagesOneByOne (w : World) : statusMsg × World :=
  match installLoop pkgs w with
  | (some msg, w1) => (msg, w1)
  | (none, w1) => copyConfig w1

/-- The closure returned by `configureHyprland`. -/
def configureHyprland (w : World) : statusMsg × World :=
  ({ status := "Configuration completed.", err := none }, w)

/-- The function `checkHyprlandInstalled`. -/
def checkHyprlandInstalled (w : World) : statusMsg × World :=
  match exec.LookPath "Hyprland" w with
  | ((_, some e), w1) => ({ status := "Hyprland not found in PATH", err := some e }, w1)
  | ((_, none), w1) => ({ status := "Hyprland is installed.", err := none }, w1)

/-- The function `checkXDGEnv`. -/
def checkXDGEnv (w : World) : statusMsg × World :=
  let (xdg, w1) := os.Getenv "XDG_RUNTIME_DIR" w
  if xdg ≠ "/tmp" then
    ({ status := "XDG_RUNTIME_DIR is set to " ++ xdg ++ ", expected /tmp", err := none }, w1)
  else ({ status := "XDG_RUNTIME_DIR is correctly set to /tmp.", err := none }, w1)

/-- The `for _, check := range checks` loop of `troubleshootHyprland`: a result
with an error is returned, any other result is dropped. -/
def checkLoop : List (World → statusMsg × World) → World → statusMsg × World
  | [], w => ({ status := "No common issues found.", err := none }, w)
  | check :: rest, w =>
    let (result, w1) := check w
    match result.err with
    | some _ => (result, w1)
    | none => checkLoop rest w1

/-- The closure returned by `troubleshootHyprland`. -/
def troubleshootHyprland (w : World) : statusMsg × World :=
  checkLoop [checkHyprlandInstalled, checkXDGEnv] w

/-- The `for _, log := range m.logs` loop of `saveLogsToFile`: `some` is the
message of the early `return`. -/
def writeLoop (logFile : String) : List String → World → Option statusMsg × World
  | [], w => (none, w)
  | log :: rest, w =>
    match os.WriteString logFile (log ++ "\n") w with
    | (some e, w1) => (some { status := "Failed to write to log file", err := some e }, w1)
    | (none, w1) => writeLoop logFile rest w1

/-- The closure returned by `saveLogsToFile(m)`.  The deferred `file.Close()`
runs on both returns that follow the successful open. -/
def saveLogsToFile (m : model) (w : World) : statusMsg × World :=
  let (tmp, w1) := os.TempDir w
  let logFile := filepath.Join [tmp, "hyprland_setup.log"]
  match os.OpenFile logFile w1 with
  | (some e, w2) => ({ status := "Failed to open log file for writing", err := some e }, w2)
  | (none, w2) =>
    match writeLoop logFile m.logs w2 with
    | (some msg, w3) => (msg, os.Close logFile w3)
    | (none, w3) => ({ status := "Logs saved to " ++ logFile, err := none }, os.Close logFile w3)

/-- What running a command delivers: `tea.Quit` and `nil` deliver no
`statusMsg`, each task-runner closure delivers exactly one. -/
def Cmd.perform : Cmd → World → Option statusMsg × World
  | Cmd.nil, w => (none, w)
  | Cmd.Quit, w => (none, w)
  | Cmd.installPackagesOneByOne, w => ((HyprSetup.installPackagesOneByOne w).map some id)
  | Cmd.configureHyprland, w => ((HyprSetup.configureHyprland w).map some id)
  | Cmd.troubleshootHyprland, w => ((HyprSetup.troubleshootHyprland w).map some id)
  | Cmd.saveLogsToFile m, w => ((HyprSetup.saveLogsToFile m w).map some id)

/-- The function `setupEnvironment`, the first call of `main`: the variable is
set whatever it held, and `/tmp` is created when it does not exist; the error of
`os.Setenv` is ignored, a failed `os.Mkdir` is logged. -/
def setupEnvironment (w : World) : World :=
  let (_, w1) := os.Setenv "XDG_RUNTIME_DIR" "/tmp" w
  match os.Stat "/tmp" w1 with
  | ((_, true), w2) =>
    match os.Mkdir "/tmp" w2 with
    | (some e, w3) => log.Println ("Failed to create /tmp: " ++ e) w3
    | (none, w3) => w3
  | ((_, false), w2) => w2

/-- The commands of a session performed one after the other. -/
def performAll : List Cmd → World → World
  | [], w => w
  | c :: cs, w => performAll cs (c.perform w).2

/-- The world side of `main` up to a point of the session: `setupEnvironment`
first, then the program, in which the commands that `Update` returned so far
have been performed.  The result is the world the next command finds. -/
def sessionWorld (cmds : List Cmd) (w : World) : World :=
  performAll cmds (setupEnvironment w)

/-! ## Vocabulary of the properties and sample worlds -/

/-- The invariant of the event loop: the menu is the initial one and the cursor
is on one of its five rows. -/
def CursorInv (m : model) : Prop :=
  m.choices = initialModel.choices ∧ 0 ≤ m.cursor ∧ m.cursor ≤ 4

/-- The calls made for the packages that install, in order: the command, the
pause and the console line of each. -/
def installedTrace : List String → List Effect
  | [] => []
  | q :: rest =>
    Effect.CombinedOutput (installArgv q) :: Effect.Sleep 500
      :: Effect.Printf ("Successfully installed " ++ q ++ "\n") :: installedTrace rest

/-- A world in which every call succeeds: the home directory is `/home/user`,
the working directory holds a `hyprland.conf`, `Hyprland` is on the search path
and `XDG_RUNTIME_DIR` is `/tmp`. -/
def sampleWorld : World :=
  { combinedOutput := fun _ => { out := "", err := none }
    userHomeDir := ("/home/user", none)
    mkdirAllErr := fun _ => none
    readFileErr := fun _ => none
    writeFileErr := fun _ => none
    lookPath := fun file => ("/usr/local/bin/" ++ file, none)
    getenv := fun key => if key = "XDG_RUNTIME_DIR" then "/tmp" else ""
    tempDir := "/tmp"
    openFileErr := fun _ => none
    writeStringErr := fun _ _ => none
    statErr := fun _ => none
    mkdirErr := fun _ => none
    files := fun p => if p = "hyprland.conf" then some "monitor=,preferred,auto,1\n" else none
    dirs := fun p => p == "/" || p == "/home" || p == "/home/user" || p == "/tmp"
    trace := [] }

/-- The world `sampleWorld` with the install command of one package failing with
the given combined output. -/
def failingWorld (pkg out : String) : World :=
  { sampleWorld with
    combinedOutput := fun argv =>
      if argv = installArgv pkg then { out := out, err := some "exit status 1" }
      else { out := "", err := none } }

/-- The text `l1 ++ "\n" ++ ... ++ lN ++ "\n"`: every entry followed by a
newline, in order. -/
def concatLines : List String → String
  | [] => ""
  | l :: rest => l ++ "\n" ++ concatLines rest

/-- The world `sampleWorld` with `Hyprland` missing from the search path. -/
def hyprlandMissing : World :=
  { sampleWorld with
    lookPath := fun file =>
      ("", some ("exec: \"" ++ file ++ "\": executable file not found in $PATH")) }

/-- The world of a login session, as the process finds it when it starts:
`sampleWorld` with `XDG_RUNTIME_DIR` set to `/run/user/1001`. -/
def loginWorld : World :=
  { sampleWorld with getenv := fun key => if key = "XDG_RUNTIME_DIR" then "/run/user/1001" else "" }

/-- A proper path element: not empty, without a separator, neither `.` nor `..`. -/
def PlainElement (e : List Char) : Prop :=
  e ≠ [] ∧ '/' ∉ e ∧ e ≠ ['.'] ∧ e ≠ ['.', '.']

/-- The characters of the absolute path `/e1/e2/.../en`. -/
def absPath : List (List Char) → List Char
  | [] => []
  | e :: es => '/' :: (e ++ absPath es)

/-! ## The session controller -/

theorem dispatch_cursor (m : model) : (dispatch m).1.cursor = m.cursor := by
  unfold dispatch
  split_ifs <;> rfl

theorem dispatch_choices (m : model) : (dispatch m).1.choices = m.choices := by
  unfold dispatch
  split_ifs <;> rfl

theorem index_isSome (s : List String) (i : Int) (h0 : 0 ≤ i) (h1 : i < (s.length : Int)) :
    ∃ c, index s i = some c := by
  have hlt : i.toNat < s.length := by omega
  refine ⟨s.get ⟨i.toNat, hlt⟩, ?_⟩
  unfold index
  rw [if_pos ⟨h0, h1⟩]
  exact List.get?_eq_get hlt

theorem Update_up (m : model) :
    Update m (Msg.KeyMsg "up")
      = some (if m.cursor > 0 then { m with cursor := m.cursor - 1 } else m, Cmd.nil) := by
  simp [Update]

theorem Update_down (m : model) :
    Update m (Msg.KeyMsg "down")
      = some (if m.cursor < (m.choices.length : Int) - 1 then { m with cursor := m.cursor + 1 } else m,
          Cmd.nil) := by
  simp [Update]

theorem Update_enter (m : model) :
    Update m (Msg.KeyMsg "enter")
      = (index m.choices m.cursor).map fun c =>
          dispatch { m with selected := c, isProcessing := true } := by
  simp only [Update]
  rw [if_pos trivial]
  cases index m.choices m.cursor <;> rfl

theorem Update_quit (m : model) (key : String) (h : key = "ctrl+c" ∨ key = "q") :
    Update m (Msg.KeyMsg key) = some (m, Cmd.Quit) := by
  simp only [Update]
  rw [if_pos h]

theorem Update_otherKey (m : model) (key : String) (hq : ¬ (key = "ctrl+c" ∨ key = "q"))
    (hu : key ≠ "up") (hd : key ≠ "down") (he : key ≠ "enter") :
    Update m (Msg.KeyMsg key) = some (m, Cmd.nil) := by
  simp only [Update]
  rw [if_neg hq, if_neg hu, if_neg hd, if_neg he]

theorem Update_status (m : model) (status : String) (err : error) :
    Update m (Msg.statusMsg { status := status, err := err })
      = some ({ m with
                logs := m.logs ++ status :: (match err with
                  | none => []
                  | some t => ["Error: " ++ t])
                isProcessing := false }, Cmd.nil) := by
  cases err with
  | none => rfl
  | some t => simp [Update, errorLine]

theorem Update_inv (m : model) (h : CursorInv m) (e : Msg) :
    ∃ m1 c, Update m e = some (m1, c) ∧ CursorInv m1 := by
  obtain ⟨hc, h0, h4⟩ := h
  have hlen : m.choices.length = 5 := by rw [hc]; rfl
  cases e with
  | KeyMsg key =>
    by_cases hq : key = "ctrl+c" ∨ key = "q"
    · exact ⟨m, Cmd.Quit, Update_quit m key hq, hc, h0, h4⟩
    by_cases hu : key = "up"
    · subst hu
      refine ⟨_, _, Update_up m, ?_⟩
      split_ifs with hcur
      · exact ⟨hc, by show 0 ≤ m.cursor - 1; omega, by show m.cursor - 1 ≤ 4; omega⟩
      · exact ⟨hc, h0, h4⟩
    by_cases hd : key = "down"
    · subst hd
      refine ⟨_, _, Update_down m, ?_⟩
      split_ifs with hcur
      · rw [hlen] at hcur
        exact ⟨hc, by show 0 ≤ m.cursor + 1; omega, by show m.cursor + 1 ≤ 4; omega⟩
      · exact ⟨hc, h0, h4⟩
    by_cases he : key = "enter"
    · subst he
      obtain ⟨c, hidx⟩ := index_isSome m.choices m.cursor h0 (by rw [hlen]; omega)
      refine ⟨(dispatch { m with selected := c, isProcessing := true }).1,
        (dispatch { m with selected := c, isProcessing := true }).2, ?_, ?_, ?_, ?_⟩
      · rw [Update_enter, hidx]; rfl
      · rw [dispatch_choices]; exact hc
      · rw [dispatch_cursor]; exact h0
      · rw [dispatch_cursor]; exact h4
    · exact ⟨m, Cmd.nil, Update_otherKey m key hq hu hd he, hc, h0, h4⟩
  | statusMsg msg =>
    obtain ⟨status, err⟩ := msg
    exact ⟨_, _, Update_status m status err, hc, h0, h4⟩
  | other => exact ⟨_, _, rfl, hc, h0, h4⟩

theorem run_inv (evs : List Msg) :
    ∀ m : model, CursorInv m → ∃ m1, run m evs = some m1 ∧ CursorInv m1 := by
  induction evs with
  | nil => intro m h; exact ⟨m, rfl, h⟩
  | cons e es ih =>
    intro m h
    obtain ⟨m1, c, hu, h1⟩ := Update_inv m h e
    obtain ⟨m2, hr, h2⟩ := ih m1 h1
    refine ⟨m2, ?_, h2⟩
    simp only [run, hu]
    exact hr

/-- C1. Whatever sequence of messages (keys, outcome events, others) `Update`
processes from `initialModel`, the loop does not panic and reaches a model whose
menu still has its N = 5 entries and whose cursor is in [0, N-1].  In that model
"up" sets the cursor to max(c-1, 0) and "down" to min(c+1, N-1), so "up" at 0
and "down" at N-1 return the model unchanged, and the lookup
`m.choices[m.cursor]` of "enter" is in range. -/
theorem cursor_stays_in_menu (evs : List Msg) :
    ∃ m, run initialModel evs = some m ∧
      m.choices.length = 5 ∧ 0 ≤ m.cursor ∧ m.cursor ≤ (m.choices.length : Int) - 1 ∧
      (∃ m1, Update m (Msg.KeyMsg "up") = some (m1, Cmd.nil) ∧
        m1.cursor = max (m.cursor - 1) 0 ∧ (m.cursor = 0 → m1 = m)) ∧
      (∃ m1, Update m (Msg.KeyMsg "down") = some (m1, Cmd.nil) ∧
        m1.cursor = min (m.cursor + 1) ((m.choices.length : Int) - 1) ∧
        (m.cursor = (m.choices.length : Int) - 1 → m1 = m)) ∧
      (∃ c, index m.choices m.cursor = some c ∧ c ∈ m.choices) ∧
      (Update m (Msg.KeyMsg "enter")).isSome = true := by
  obtain ⟨m, hrun, hc, h0, h4⟩ := run_inv evs initialModel ⟨rfl, by decide, by decide⟩
  have hlen : m.choices.length = 5 := by rw [hc]; rfl
  obtain ⟨c, hidx⟩ := index_isSome m.choices m.cursor h0 (by rw [hlen]; omega)
  refine ⟨m, hrun, hlen, h0, by rw [hlen]; omega, ?_, ?_, ⟨c, hidx, ?_⟩, ?_⟩
  · refine ⟨_, Update_up m, ?_, ?_⟩
    · split_ifs with hcur
      · show m.cursor - 1 = max (m.cursor - 1) 0
        omega
      · omega
    · intro hz
      rw [if_neg (by omega)]
  · refine ⟨_, Update_down m, ?_, ?_⟩
    · rw [hlen]
      split_ifs with hcur
      · show m.cursor + 1 = min (m.cursor + 1) _
        omega
      · omega
    · intro hz
      rw [if_neg (by omega)]
  · unfold index at hidx
    rw [if_pos ⟨h0, by rw [hlen]; omega⟩] at hidx
    exact List.get?_mem hidx
  · rw [Update_enter, hidx]
    rfl

/-- C2. For every model whose menu is the initial one and whose cursor is on
"Exit" (row 4), whatever its log, previous selection, progress and flags,
`Update` on "enter" returns the quit command and the model with
`selected = "Exit"`, `quitting = true` (and `isProcessing = true`), every other
field, the log included, as it was: no task-runner command is returned. -/
theorem enter_on_exit_quits (m : model) (hmenu : m.choices = initialModel.choices)
    (hcur : m.cursor = 4) :
    Update m (Msg.KeyMsg "enter")
      = some ({ m with selected := "Exit", isProcessing := true, quitting := true }, Cmd.Quit) := by
  rw [Update_enter, hmenu, hcur]
  rfl

theorem enter_on_exit_quits_witness :
    Update { initialModel with cursor := 4, logs := ["Configuration completed."],
                               selected := "Configure Hyprland" } (Msg.KeyMsg "enter")
      = some ({ initialModel with cursor := 4, logs := ["Configuration completed."],
                                  selected := "Exit", isProcessing := true, quitting := true },
              Cmd.Quit) :=
  enter_on_exit_quits _ rfl rfl

/-- C7. For every model `m` and outcome event `(status, err)`, `Update` returns
no command and the model whose log is `m.logs ++ [status]` when `err` is nil and
`m.logs ++ [status, "Error: " ++ text]` when `err` is an error with that text,
whose `isProcessing` is false, and whose menu, cursor, selection, progress and
`quitting` are those of `m`. -/
theorem outcome_appended_to_log (m : model) (status : String) :
    Update m (Msg.statusMsg { status := status, err := none })
        = some ({ m with logs := m.logs ++ [status], isProcessing := false }, Cmd.nil) ∧
    ∀ text : String,
      Update m (Msg.statusMsg { status := status, err := some text })
        = some ({ m with logs := m.logs ++ [status, "Error: " ++ text], isProcessing := false },
            Cmd.nil) :=
  ⟨Update_status m status none, fun text => Update_status m status (some text)⟩

/-! ## The install action -/

theorem installLoop_ok (l : List String) :
    ∀ w : World, (∀ q ∈ l, (w.combinedOutput (installArgv q)).err = none) →
      installLoop l w = (none, { w with trace := w.trace ++ installedTrace l }) := by
  induction l with
  | nil => intro w _; simp [installLoop, installedTrace]
  | cons q rest ih =>
    intro w h
    have hq : (w.combinedOutput (installArgv q)).err = none := h q (List.mem_cons_self _ _)
    simp only [installLoop, exec.CombinedOutput, hq]
    rw [ih _ (by intro r hr; exact h r (List.mem_cons_of_mem _ hr))]
    simp [installedTrace, fmt.Printf, time.Sleep, World.record]

theorem installLoop_fail (pre : List String) (p : String) (post : List String) :
    ∀ w : World, (∀ q ∈ pre, (w.combinedOutput (installArgv q)).err = none) →
      (w.combinedOutput (installArgv p)).err ≠ none →
      installLoop (pre ++ p :: post) w
        = (some { status := "Failed to install " ++ p,
                  err := fmt.Errorf (w.combinedOutput (installArgv p)).out },
           { w with trace := w.trace ++ (installedTrace pre ++ [Effect.CombinedOutput (installArgv p)]) }) := by
  induction pre with
  | nil =>
    intro w _ hp
    obtain ⟨e, he⟩ := Option.ne_none_iff_exists'.mp hp
    simp [installLoop, exec.CombinedOutput, he, installedTrace, World.record]
  | cons q rest ih =>
    intro w h hp
    have hq : (w.combinedOutput (installArgv q)).err = none := h q (List.mem_cons_self _ _)
    show installLoop (q :: (rest ++ p :: post)) w = _
    simp only [installLoop, exec.CombinedOutput, hq]
    rw [ih _ (by intro r hr; exact h r (List.mem_cons_of_mem _ hr)) (by exact hp)]
    simp [installedTrace, fmt.Printf, time.Sleep, World.record]

theorem exists_first (P : String → Prop) (l : List String) (h : ∃ q ∈ l, P q) :
    ∃ pre p post, l = pre ++ p :: post ∧ (∀ q ∈ pre, ¬ P q) ∧ P p := by
  classical
  induction l with
  | nil => obtain ⟨q, hq, _⟩ := h; cases hq
  | cons a rest ih =>
    by_cases ha : P a
    · refine ⟨[], a, rest, rfl, ?_, ha⟩
      intro q hq
      cases hq
    · obtain ⟨q, hq, hP⟩ := h
      have hrest : ∃ q ∈ rest, P q := by
        rcases List.mem_cons.mp hq with rfl | hmem
        · exact absurd hP ha
        · exact ⟨q, hmem, hP⟩
      obtain ⟨pre, p, post, hsplit, hpre, hp⟩ := ih hrest
      refine ⟨a :: pre, p, post, by rw [hsplit]; rfl, ?_, hp⟩
      intro r hr
      rcases List.mem_cons.mp hr with rfl | hmem
      · exact ha
      · exact hpre r hmem

/-- C3. For every world in which the install command of at least one package of
the list fails, the list splits as `pre ++ p :: post` with `p` the first package
whose command fails, and the install action returns the status
"Failed to install p" with a non-nil error.  The calls it makes are exactly the
command, the pause and the console line of each package of `pre`, in order, then
the command of `p`: no command of a package of `post`, and none of
`os.UserHomeDir`, `os.MkdirAll`, `os.ReadFile`, `os.WriteFile`.  The files and
directories are as before. -/
theorem install_stops_at_first_failure (w : World)
    (h : ∃ q ∈ pkgs, (w.combinedOutput (installArgv q)).err ≠ none) :
    ∃ pre p post, pkgs = pre ++ p :: post ∧
      (∀ q ∈ pre, (w.combinedOutput (installArgv q)).err = none) ∧
      (w.combinedOutput (installArgv p)).err ≠ none ∧
      (installPackagesOneByOne w).1.status = "Failed to install " ++ p ∧
      (installPackagesOneByOne w).1.err ≠ none ∧
      (installPackagesOneByOne w).2.trace
        = w.trace ++ (installedTrace pre ++ [Effect.CombinedOutput (installArgv p)]) ∧
      (installPackagesOneByOne w).2.files = w.files ∧
      (installPackagesOneByOne w).2.dirs = w.dirs := by
  obtain ⟨pre, p, post, hsplit, hpre, hp⟩ :=
    exists_first (fun q => (w.combinedOutput (installArgv q)).err ≠ none) pkgs h
  have hpre1 : ∀ q ∈ pre, (w.combinedOutput (installArgv q)).err = none :=
    fun q hq => not_not.mp (hpre q hq)
  refine ⟨pre, p, post, hsplit, hpre1, hp, ?_⟩
  have hloop := installLoop_fail pre p post w hpre1 hp
  rw [← hsplit] at hloop
  unfold installPackagesOneByOne
  rw [hloop]
  exact ⟨rfl, by simp [fmt.Errorf], rfl, rfl, rfl⟩

theorem install_stops_at_first_failure_witness :
    (∃ q ∈ pkgs, ((failingWorld "xwayland" "pkg: no such package\n").combinedOutput
        (installArgv q)).err ≠ none) ∧
    ∃ pre p post, pkgs = pre ++ p :: post ∧
      (∀ q ∈ pre, ((failingWorld "xwayland" "pkg: no such package\n").combinedOutput
        (installArgv q)).err = none) ∧
      ((failingWorld "xwayland" "pkg: no such package\n").combinedOutput (installArgv p)).err ≠ none ∧
      (installPackagesOneByOne (failingWorld "xwayland" "pkg: no such package\n")).1.status
        = "Failed to install " ++ p ∧
      (installPackagesOneByOne (failingWorld "xwayland" "pkg: no such package\n")).1.err ≠ none ∧
      (installPackagesOneByOne (failingWorld "xwayland" "pkg: no such package\n")).2.trace
        = (failingWorld "xwayland" "pkg: no such package\n").trace
          ++ (installedTrace pre ++ [Effect.CombinedOutput (installArgv p)]) ∧
      (installPackagesOneByOne (failingWorld "xwayland" "pkg: no such package\n")).2.files
        = (failingWorld "xwayland" "pkg: no such package\n").files ∧
      (installPackagesOneByOne (failingWorld "xwayland" "pkg: no such package\n")).2.dirs
        = (failingWorld "xwayland" "pkg: no such package\n").dirs :=
  ⟨⟨"xwayland", by decide, by decide⟩,
    install_stops_at_first_failure (failingWorld "xwayland" "pkg: no such package\n")
      ⟨"xwayland", by decide, by decide⟩⟩

/-! ## The copy of the configuration file -/

theorem Clean_ne_empty (path : String) : filepath.Clean path ≠ "" := by
  unfold filepath.Clean
  by_cases h1 : path = ""
  · rw [if_pos h1]
    decide
  · rw [if_neg h1]
    simp only
    split_ifs with h2 h3
    · intro h
      have hl := congrArg String.length h
      rw [String.length_append] at hl
      have h1 : "/".length = 1 := rfl
      have h0 : "".length = 0 := rfl
      omega
    · decide
    · exact h3

theorem Join_ne_empty (home a b : String) (ha : a ≠ "") : filepath.Join [home, a, b] ≠ "" := by
  unfold filepath.Join
  have ha1 : (a == "") = false := by simp [ha]
  by_cases hh : home = ""
  · subst hh
    have hd : List.dropWhile (fun e => e == "") ["", a, b] = [a, b] := by
      simp [List.dropWhile, ha1]
    rw [hd]
    exact Clean_ne_empty _
  · have hh1 : (home == "") = false := by simp [hh]
    have hd : List.dropWhile (fun e => e == "") [home, a, b] = [home, a, b] := by
      simp [List.dropWhile, hh1]
    rw [hd]
    exact Clean_ne_empty _

theorem mem_pathAndParents (path : String) (h : path ≠ "") : path ∈ pathAndParents path := by
  unfold pathAndParents
  have hlen : 0 < path.length := by
    obtain ⟨data⟩ := path
    cases data with
    | nil => exact absurd rfl h
    | cons c cs => simp [String.length]
  refine List.mem_map.mpr ⟨path.length, ?_, ?_⟩
  · simp [List.mem_filter, hlen]
  · show String.mk (path.data.take path.data.length) = path
    rw [List.take_length]

theorem absPath_append (xs ys : List (List Char)) :
    absPath (xs ++ ys) = absPath xs ++ absPath ys := by
  induction xs with
  | nil => rfl
  | cons x rest ih => simp [absPath, ih]

theorem elements_noSep (e : List Char) (h : '/' ∉ e) : filepath.elements e = [e] := by
  induction e with
  | nil => rfl
  | cons c cs ih =>
    have hc : c ≠ '/' := fun hc => h (by rw [hc]; exact List.mem_cons_self _ _)
    have hcs : '/' ∉ cs := fun hm => h (List.mem_cons_of_mem _ hm)
    simp [filepath.elements, hc, ih hcs]

theorem elements_sep (e rest : List Char) (h : '/' ∉ e) :
    filepath.elements (e ++ '/' :: rest) = e :: filepath.elements rest := by
  induction e with
  | nil => simp [filepath.elements]
  | cons c cs ih =>
    have hc : c ≠ '/' := fun hc => h (by rw [hc]; exact List.mem_cons_self _ _)
    have hcs : '/' ∉ cs := fun hm => h (List.mem_cons_of_mem _ hm)
    simp [filepath.elements, hc, ih hcs]

theorem elements_absPath (es : List (List Char)) (hne : es ≠ [])
    (h : ∀ e ∈ es, PlainElement e) : filepath.elements (absPath es) = [] :: es := by
  induction es with
  | nil => exact absurd rfl hne
  | cons e rest ih =>
    have he : '/' ∉ e := (h e (List.mem_cons_self _ _)).2.1
    cases rest with
    | nil => simp [absPath, filepath.elements, elements_noSep e he]
    | cons e2 rest2 =>
      have ih1 := ih (by simp) (fun x hx => h x (List.mem_cons_of_mem _ hx))
      have hstep : absPath (e :: e2 :: rest2) = '/' :: (e ++ '/' :: (e2 ++ absPath rest2)) := rfl
      have htail : absPath (e2 :: rest2) = '/' :: (e2 ++ absPath rest2) := rfl
      rw [htail] at ih1
      simp only [filepath.elements, if_true] at ih1
      rw [hstep]
      simp only [filepath.elements, if_true]
      rw [elements_sep e _ he]
      simp at ih1
      rw [ih1]

theorem cleanStep_plain (out : List (List Char)) (e : List Char) (h : PlainElement e) :
    filepath.cleanStep true out e = e :: out := by
  obtain ⟨h1, _, h3, h4⟩ := h
  simp [filepath.cleanStep, h1, h3, h4]

theorem foldl_cleanStep_plain (es : List (List Char)) (h : ∀ e ∈ es, PlainElement e) :
    ∀ out, es.foldl (filepath.cleanStep true) out = es.reverse ++ out := by
  induction es with
  | nil => intro out; rfl
  | cons e rest ih =>
    intro out
    rw [List.foldl_cons, cleanStep_plain out e (h e (List.mem_cons_self _ _)),
      ih (fun x hx => h x (List.mem_cons_of_mem _ hx))]
    simp

theorem intercalate_go_data (l : List String) :
    ∀ acc : String, (String.intercalate.go acc "/" l).data = acc.data ++ absPath (l.map String.data) := by
  induction l with
  | nil => intro acc; simp [String.intercalate.go, absPath]
  | cons a rest ih =>
    intro acc
    simp [String.intercalate.go, ih, absPath, String.data_append]

theorem Clean_absPath (path : String) (es : List (List Char)) (hne : es ≠ [])
    (h : ∀ e ∈ es, PlainElement e) (hp : path.data = absPath es) : filepath.Clean path = path := by
  obtain ⟨e, rest, rfl⟩ := List.exists_cons_of_ne_nil hne
  have hpne : path ≠ "" := by
    intro hx
    rw [hx] at hp
    simp [absPath] at hp
  have hrooted : path.toList.head? = some '/' := by
    show path.data.head? = some '/'
    rw [hp]
    rfl
  unfold filepath.Clean
  rw [if_neg hpne]
  simp only [hrooted, if_true, decide_True]
  show "/" ++ "/".intercalate (List.map String.mk
    (List.foldl (filepath.cleanStep true) [] (filepath.elements path.data)).reverse) = path
  rw [hp, elements_absPath _ hne h, List.foldl_cons]
  have h0 : filepath.cleanStep true [] [] = [] := rfl
  rw [h0, foldl_cleanStep_plain _ h]
  apply String.ext
  rw [String.data_append, hp]
  simp only [List.append_nil, List.reverse_reverse, List.map_cons, String.intercalate,
    intercalate_go_data, List.map_map]
  have hmap : List.map (String.data ∘ String.mk) rest = rest := by
    have hid : (String.data ∘ String.mk) = id := rfl
    rw [hid, List.map_id]
  rw [hmap]
  rfl

theorem Join_absPath (home : String) (rest : List String) (es : List (List Char)) (hne : es ≠ [])
    (h : ∀ e ∈ es, PlainElement e) (hp : home.data = absPath es)
    (hrest : ∀ r ∈ rest, PlainElement r.data) :
    (filepath.Join (home :: rest)).data = home.data ++ absPath (rest.map String.data) := by
  have hhome : (home == "") = false := by
    have : home ≠ "" := by
      intro hx
      obtain ⟨e, tl, rfl⟩ := List.exists_cons_of_ne_nil hne
      rw [hx] at hp
      simp [absPath] at hp
    simp [this]
  have hdata : ("/".intercalate (home :: rest)).data = absPath (es ++ rest.map String.data) := by
    simp only [String.intercalate, intercalate_go_data, hp, absPath_append]
  unfold filepath.Join
  rw [List.dropWhile_cons, hhome]
  simp only [Bool.false_eq_true, if_false]
  rw [Clean_absPath _ (es ++ rest.map String.data) (by simp [hne]) ?_ hdata, hdata, absPath_append, hp]
  intro e he
  rcases List.mem_append.mp he with h1 | h1
  · exact h e h1
  · obtain ⟨r, hr, rfl⟩ := List.mem_map.mp h1
    exact hrest r hr

/-- For a home directory that is a clean absolute path `/e1/.../en`, the
destination of the copy is the home directory followed by
`/.config/hypr/hyprland.conf`, and the configuration directory is the home
directory followed by `/.config/hypr`. -/
theorem destination_of_clean_home (home : String) (es : List (List Char)) (hne : es ≠ [])
    (h : ∀ e ∈ es, PlainElement e) (hp : home.data = absPath es) :
    filepath.Join [home, ".config", "hypr"] = home ++ "/.config/hypr" ∧
    filepath.Join [filepath.Join [home, ".config", "hypr"], "hyprland.conf"]
      = home ++ "/.config/hypr/hyprland.conf" := by
  have hplain : ∀ r ∈ [".config", "hypr"], PlainElement (r : String).data := by
    intro r hr
    simp only [List.mem_cons, List.mem_singleton, List.not_mem_nil, or_false] at hr
    rcases hr with rfl | rfl <;> exact ⟨by decide, by decide, by decide, by decide⟩
  have h1 : (filepath.Join [home, ".config", "hypr"]).data
      = absPath (es ++ [".config".data, "hypr".data]) := by
    rw [Join_absPath home _ es hne h hp hplain, absPath_append, hp]
    rfl
  have hdir : filepath.Join [home, ".config", "hypr"] = home ++ "/.config/hypr" := by
    apply String.ext
    rw [h1, String.data_append, absPath_append, hp]
    rfl
  refine ⟨hdir, ?_⟩
  apply String.ext
  rw [Join_absPath _ ["hyprland.conf"] (es ++ [".config".data, "hypr".data]) (by simp [hne]) ?_ h1
    ?_, h1, String.data_append, absPath_append, hp]
  · simp [absPath]
  · intro e he
    rcases List.mem_append.mp he with h2 | h2
    · exact h e h2
    · simp only [List.mem_cons, List.mem_singleton, List.not_mem_nil, or_false] at h2
      rcases h2 with rfl | rfl <;> exact ⟨by decide, by decide, by decide, by decide⟩
  · intro r hr
    simp only [List.mem_singleton] at hr
    subst hr
    exact ⟨by decide, by decide, by decide, by decide⟩

theorem copyConfig_ok (w : World) (b : String)
    (hmk : w.mkdirAllErr (filepath.Join [w.userHomeDir.1, ".config", "hypr"]) = none)
    (hrd : w.readFileErr "hyprland.conf" = none)
    (hfile : w.files "hyprland.conf" = some b)
    (hwr : w.writeFileErr
      (filepath.Join [filepath.Join [w.userHomeDir.1, ".config", "hypr"], "hyprland.conf"]) = none) :
    copyConfig w
      = ({ status := "Hyprland installation and configuration completed successfully.",
           err := none },
         { w with
           files := fun p =>
             if p = filepath.Join [filepath.Join [w.userHomeDir.1, ".config", "hypr"], "hyprland.conf"]
             then some b else w.files p
           dirs := fun p =>
             decide (p ∈ pathAndParents (filepath.Join [w.userHomeDir.1, ".config", "hypr"]))
               || w.dirs p
           trace := w.trace ++
             [Effect.UserHomeDir,
              Effect.MkdirAll (filepath.Join [w.userHomeDir.1, ".config", "hypr"]),
              Effect.ReadFile "hyprland.conf",
              Effect.WriteFile
                (filepath.Join [filepath.Join [w.userHomeDir.1, ".config", "hypr"], "hyprland.conf"])
                b] }) := by
  simp [copyConfig, os.UserHomeDir, os.MkdirAll, os.ReadFile, os.WriteFile, World.record, hmk, hrd,
    hfile, hwr]

/-- C4. Whenever the install command of every package succeeds, the creation of
the configuration directory `Join(home, ".config", "hypr")` succeeds, reading
`hyprland.conf` yields the bytes `b` and the write of
`Join(configDir, "hyprland.conf")` succeeds, the install action returns the
status "Hyprland installation and configuration completed successfully." with no
error; afterwards the destination file holds exactly `b` (whatever it held
before), the configuration directory exists (whether it did before or not),
every other file is as before and every directory that existed still does.
When the home directory is a clean absolute path `/e1/.../en`, the directory is
`<home>/.config/hypr` and the destination `<home>/.config/hypr/hyprland.conf`. -/
theorem install_copies_config (w : World) (b : String)
    (hpkgs : ∀ q ∈ pkgs, (w.combinedOutput (installArgv q)).err = none)
    (hmk : w.mkdirAllErr (filepath.Join [w.userHomeDir.1, ".config", "hypr"]) = none)
    (hrd : w.readFileErr "hyprland.conf" = none)
    (hfile : w.files "hyprland.conf" = some b)
    (hwr : w.writeFileErr
      (filepath.Join [filepath.Join [w.userHomeDir.1, ".config", "hypr"], "hyprland.conf"]) = none) :
    (installPackagesOneByOne w).1
        = { status := "Hyprland installation and configuration completed successfully.",
            err := none } ∧
    (installPackagesOneByOne w).2.files
        (filepath.Join [filepath.Join [w.userHomeDir.1, ".config", "hypr"], "hyprland.conf"])
        = some b ∧
    (installPackagesOneByOne w).2.dirs (filepath.Join [w.userHomeDir.1, ".config", "hypr"]) = true ∧
    (∀ p, p ≠ filepath.Join [filepath.Join [w.userHomeDir.1, ".config", "hypr"], "hyprland.conf"] →
        (installPackagesOneByOne w).2.files p = w.files p) ∧
    (∀ p, w.dirs p = true → (installPackagesOneByOne w).2.dirs p = true) ∧
    (∀ es : List (List Char), es ≠ [] → (∀ e ∈ es, PlainElement e) →
      w.userHomeDir.1.toList = absPath es →
      filepath.Join [w.userHomeDir.1, ".config", "hypr"] = w.userHomeDir.1 ++ "/.config/hypr" ∧
      filepath.Join [filepath.Join [w.userHomeDir.1, ".config", "hypr"], "hyprland.conf"]
        = w.userHomeDir.1 ++ "/.config/hypr/hyprland.conf") := by
  have hloop := installLoop_ok pkgs w hpkgs
  unfold installPackagesOneByOne
  rw [hloop]
  simp only
  rw [copyConfig_ok { w with trace := w.trace ++ installedTrace pkgs } b hmk hrd hfile hwr]
  refine ⟨rfl, ?_, ?_, ?_, ?_, ?_⟩
  · simp
  · simp [mem_pathAndParents _ (Join_ne_empty w.userHomeDir.1 ".config" "hypr" (by decide))]
  · intro p hp
    simp [hp]
  · intro p hp
    simp [hp]
  · intro es hne hplain hhome
    exact destination_of_clean_home w.userHomeDir.1 es hne hplain hhome

theorem install_copies_config_witness :
    (installPackagesOneByOne sampleWorld).1
        = { status := "Hyprland installation and configuration completed successfully.",
            err := none } ∧
    (installPackagesOneByOne sampleWorld).2.files "/home/user/.config/hypr/hyprland.conf"
        = some "monitor=,preferred,auto,1\n" ∧
    (installPackagesOneByOne sampleWorld).2.dirs "/home/user/.config/hypr" = true ∧
    (∀ p, p ≠ "/home/user/.config/hypr/hyprland.conf" →
        (installPackagesOneByOne sampleWorld).2.files p = sampleWorld.files p) ∧
    (∀ p, sampleWorld.dirs p = true → (installPackagesOneByOne sampleWorld).2.dirs p = true) ∧
    (∀ es : List (List Char), es ≠ [] → (∀ e ∈ es, PlainElement e) →
      "/home/user".toList = absPath es →
      filepath.Join ["/home/user", ".config", "hypr"] = "/home/user" ++ "/.config/hypr" ∧
      filepath.Join [filepath.Join ["/home/user", ".config", "hypr"], "hyprland.conf"]
        = "/home/user" ++ "/.config/hypr/hyprland.conf") :=
  install_copies_config sampleWorld "monitor=,preferred,auto,1\n" (by decide) rfl rfl rfl rfl

/-! ## The save-logs action -/

theorem concatLines_append (xs ys : List String) :
    concatLines (xs ++ ys) = concatLines xs ++ concatLines ys := by
  induction xs with
  | nil => simp [concatLines]
  | cons x rest ih => simp [concatLines, ih, String.append_assoc]

theorem newlines_le_concatLines (xs : List String) :
    xs.length ≤ (concatLines xs).toList.count '\n' := by
  induction xs with
  | nil => simp [concatLines]
  | cons x rest ih =>
    simp only [concatLines, String.toList, String.data_append, List.count_append, List.length_cons]
    have h1 : List.count '\n' ['\n'] = 1 := by decide
    have ih1 : rest.length ≤ (concatLines rest).data.count '\n' := ih
    omega

theorem writeLoop_ok (logFile : String) (logs : List String) :
    ∀ (w : World) (c : String), w.files logFile = some c →
      (∀ l ∈ logs, w.writeStringErr logFile (l ++ "\n") = none) →
      writeLoop logFile logs w
        = (none,
           { w with
             files := fun p => if p = logFile then some (c ++ concatLines logs) else w.files p
             trace := w.trace ++ logs.map fun l => Effect.WriteString logFile (l ++ "\n") }) := by
  induction logs with
  | nil =>
    intro w c hc _
    have hf : (fun p => if p = logFile then some (c ++ concatLines []) else w.files p) = w.files := by
      funext p
      by_cases hp : p = logFile
      · subst hp
        simp [concatLines, hc]
      · simp [hp]
    simp only [writeLoop, hf, List.map_nil, List.append_nil]
  | cons l rest ih =>
    intro w c hc hw
    have hl : w.writeStringErr logFile (l ++ "\n") = none := hw l (List.mem_cons_self _ _)
    simp only [writeLoop, os.WriteString, hl]
    rw [ih _ (c ++ (l ++ "\n")) (by simp [World.record, hc])
      (by intro r hr; exact hw r (List.mem_cons_of_mem _ hr))]
    simp only [World.record, concatLines, List.map_cons, List.append_assoc, List.singleton_append,
      String.append_assoc, Prod.mk.injEq, true_and]
    congr 1
    funext p
    by_cases hp : p = logFile
    · simp [hp]
    · simp [hp]

theorem saveLogsToFile_ok (m : model) (w : World)
    (hopen : w.openFileErr (filepath.Join [w.tempDir, "hyprland_setup.log"]) = none)
    (hwrite : ∀ l ∈ m.logs,
      w.writeStringErr (filepath.Join [w.tempDir, "hyprland_setup.log"]) (l ++ "\n") = none) :
    saveLogsToFile m w
      = ({ status := "Logs saved to " ++ filepath.Join [w.tempDir, "hyprland_setup.log"],
           err := none },
         { w with
           files := fun p =>
             if p = filepath.Join [w.tempDir, "hyprland_setup.log"] then
               some ((w.files (filepath.Join [w.tempDir, "hyprland_setup.log"])).getD ""
                 ++ concatLines m.logs)
             else w.files p
           trace := w.trace ++
             (Effect.TempDir :: Effect.OpenFile (filepath.Join [w.tempDir, "hyprland_setup.log"])
               :: (m.logs.map fun l =>
                    Effect.WriteString (filepath.Join [w.tempDir, "hyprland_setup.log"]) (l ++ "\n")))
             ++ [Effect.Close (filepath.Join [w.tempDir, "hyprland_setup.log"])] }) := by
  simp only [saveLogsToFile, os.TempDir, os.OpenFile, World.record, hopen]
  rw [writeLoop_ok _ m.logs _
    ((w.files (filepath.Join [w.tempDir, "hyprland_setup.log"])).getD "") (by simp)
    (by intro l hl; exact hwrite l hl)]
  simp only [os.Close, World.record, List.append_assoc, List.singleton_append, Prod.mk.injEq,
    true_and, List.cons_append, List.nil_append]
  congr 1
  funext p
  by_cases hp : p = filepath.Join [w.tempDir, "hyprland_setup.log"]
  · simp [hp]
  · simp [hp]

/-- C8. With the open and the write of every log entry succeeding, for every
model with log `[l1..lN]` and every prior content `c` of the log file (the empty
text when the file is absent), the save-logs action reports
"Logs saved to <path>" with no error and leaves the file holding
`c ++ l1 ++ "\n" ++ ... ++ lN ++ "\n"`, every other file as it was.  Hence on an
initially absent file two invocations with the same log leave the 2N entries
`l1..lN, l1..lN`, each followed by a newline, in that order: the file has at
least 2N newline characters. -/
theorem save_logs_appends (m : model) (w : World)
    (hopen : w.openFileErr (filepath.Join [w.tempDir, "hyprland_setup.log"]) = none)
    (hwrite : ∀ l ∈ m.logs,
      w.writeStringErr (filepath.Join [w.tempDir, "hyprland_setup.log"]) (l ++ "\n") = none) :
    (saveLogsToFile m w).1
        = { status := "Logs saved to " ++ filepath.Join [w.tempDir, "hyprland_setup.log"],
            err := none } ∧
    (saveLogsToFile m w).2.files (filepath.Join [w.tempDir, "hyprland_setup.log"])
        = some ((w.files (filepath.Join [w.tempDir, "hyprland_setup.log"])).getD ""
            ++ concatLines m.logs) ∧
    (∀ p, p ≠ filepath.Join [w.tempDir, "hyprland_setup.log"] →
        (saveLogsToFile m w).2.files p = w.files p) ∧
    (w.files (filepath.Join [w.tempDir, "hyprland_setup.log"]) = none →
      (saveLogsToFile m (saveLogsToFile m w).2).1
          = { status := "Logs saved to " ++ filepath.Join [w.tempDir, "hyprland_setup.log"],
              err := none } ∧
      (saveLogsToFile m (saveLogsToFile m w).2).2.files
          (filepath.Join [w.tempDir, "hyprland_setup.log"])
          = some (concatLines (m.logs ++ m.logs)) ∧
      (m.logs ++ m.logs).length = 2 * m.logs.length ∧
      2 * m.logs.length ≤ (concatLines (m.logs ++ m.logs)).toList.count '\n') := by
  have h1 := saveLogsToFile_ok m w hopen hwrite
  refine ⟨by rw [h1], by rw [h1]; simp, ?_, ?_⟩
  · intro p hp
    rw [h1]
    simp [hp]
  · intro habsent
    have h2 := saveLogsToFile_ok m (saveLogsToFile m w).2 (by rw [h1]; exact hopen)
      (by rw [h1]; exact hwrite)
    have hlen : (m.logs ++ m.logs).length = 2 * m.logs.length := by
      rw [List.length_append]
      omega
    refine ⟨by rw [h2, h1], ?_, hlen, ?_⟩
    · rw [h2, h1]
      simp [habsent, concatLines_append]
    · rw [← hlen]
      exact newlines_le_concatLines _

theorem save_logs_appends_witness :
    (saveLogsToFile { initialModel with logs := ["Configuration completed.", "No common issues found."] }
        sampleWorld).1
        = { status := "Logs saved to /tmp/hyprland_setup.log", err := none } ∧
    (saveLogsToFile { initialModel with logs := ["Configuration completed.", "No common issues found."] }
        sampleWorld).2.files "/tmp/hyprland_setup.log"
        = some "Configuration completed.\nNo common issues found.\n" ∧
    (∀ p, p ≠ "/tmp/hyprland_setup.log" →
        (saveLogsToFile
          { initialModel with logs := ["Configuration completed.", "No common issues found."] }
          sampleWorld).2.files p = sampleWorld.files p) ∧
    (sampleWorld.files "/tmp/hyprland_setup.log" = none →
      (saveLogsToFile
          { initialModel with logs := ["Configuration completed.", "No common issues found."] }
          (saveLogsToFile
            { initialModel with logs := ["Configuration completed.", "No common issues found."] }
            sampleWorld).2).1
          = { status := "Logs saved to /tmp/hyprland_setup.log", err := none } ∧
      (saveLogsToFile
          { initialModel with logs := ["Configuration completed.", "No common issues found."] }
          (saveLogsToFile
            { initialModel with logs := ["Configuration completed.", "No common issues found."] }
            sampleWorld).2).2.files "/tmp/hyprland_setup.log"
          = some ("Configuration completed.\nNo common issues found.\n"
              ++ "Configuration completed.\nNo common issues found.\n") ∧
      (4 : Nat) = 2 * 2 ∧
      2 * 2 ≤ ("Configuration completed.\nNo common issues found.\n"
              ++ "Configuration completed.\nNo common issues found.\n").toList.count '\n') :=
  save_logs_appends
    { initialModel with logs := ["Configuration completed.", "No common issues found."] }
    sampleWorld rfl (by decide)

/-! ## The troubleshoot action -/

theorem troubleshoot_found (w : World) (h : (w.lookPath "Hyprland").2 = none) :
    troubleshootHyprland w
      = ({ status := "No common issues found.", err := none },
         { w with trace := w.trace ++ [Effect.LookPath "Hyprland", Effect.Getenv "XDG_RUNTIME_DIR"] }) := by
  simp only [troubleshootHyprland, checkLoop, checkHyprlandInstalled, exec.LookPath]
  rcases hlp : w.lookPath "Hyprland" with ⟨path, e⟩
  have he : e = none := by simpa [hlp] using h
  subst he
  simp only [checkXDGEnv, os.Getenv, World.record]
  split_ifs <;> simp

/-- C6. For every world in which resolving "Hyprland" on the search path fails
with an error `e`, the troubleshoot action returns the status
"Hyprland not found in PATH" with `e` as its (non-nil) error; the only call it
makes is the lookup, `XDG_RUNTIME_DIR` is not read, and the outcome is the same
whatever the environment variables hold.  When the lookup succeeds and
`XDG_RUNTIME_DIR` is "/tmp", the outcome is "No common issues found." with no
error. -/
theorem troubleshoot_presence_check (w : World) :
    (∀ e, (w.lookPath "Hyprland").2 = some e →
      (troubleshootHyprland w).1 = { status := "Hyprland not found in PATH", err := some e } ∧
      (troubleshootHyprland w).2.trace = w.trace ++ [Effect.LookPath "Hyprland"] ∧
      ∀ g : String → String,
        (troubleshootHyprland { w with getenv := g }).1 = (troubleshootHyprland w).1) ∧
    ((w.lookPath "Hyprland").2 = none → w.getenv "XDG_RUNTIME_DIR" = "/tmp" →
      (troubleshootHyprland w).1 = { status := "No common issues found.", err := none }) := by
  constructor
  · intro e he
    have key : ∀ g : String → String,
        troubleshootHyprland { w with getenv := g }
          = ({ status := "Hyprland not found in PATH", err := some e },
             { w with getenv := g, trace := w.trace ++ [Effect.LookPath "Hyprland"] }) := by
      intro g
      simp only [troubleshootHyprland, checkLoop, checkHyprlandInstalled, exec.LookPath]
      rcases hlp : w.lookPath "Hyprland" with ⟨path, e1⟩
      have he1 : e1 = some e := by simpa [hlp] using he
      subst he1
      simp [World.record]
    have hw := key w.getenv
    refine ⟨by rw [show w = { w with getenv := w.getenv } from rfl, hw],
      by rw [show w = { w with getenv := w.getenv } from rfl, hw], ?_⟩
    intro g
    rw [key g, show w = { w with getenv := w.getenv } from rfl, hw]
  · intro h _
    rw [troubleshoot_found w h]

theorem troubleshoot_presence_check_witness :
    ((troubleshootHyprland hyprlandMissing).1
        = { status := "Hyprland not found in PATH",
            err := some "exec: \"Hyprland\": executable file not found in $PATH" } ∧
      (troubleshootHyprland hyprlandMissing).2.trace
        = hyprlandMissing.trace ++ [Effect.LookPath "Hyprland"] ∧
      ∀ g : String → String,
        (troubleshootHyprland { hyprlandMissing with getenv := g }).1
          = (troubleshootHyprland hyprlandMissing).1) ∧
    (troubleshootHyprland sampleWorld).1 = { status := "No common issues found.", err := none } :=
  ⟨(troubleshoot_presence_check hyprlandMissing).1 _ rfl,
    (troubleshoot_presence_check sampleWorld).2 rfl rfl⟩

theorem record_getenv (w : World) (e : Effect) : (w.record e).getenv = w.getenv := rfl

theorem Stat_getenv (path : String) (w : World) : (os.Stat path w).2.getenv = w.getenv := by
  unfold os.Stat
  simp only
  split
  · rfl
  · split <;> rfl

theorem Mkdir_getenv (path : String) (w : World) : (os.Mkdir path w).2.getenv = w.getenv := by
  unfold os.Mkdir
  simp only
  split <;> rfl

theorem MkdirAll_getenv (path : String) (w : World) :
    (os.MkdirAll path w).2.getenv = w.getenv := by
  unfold os.MkdirAll
  simp only
  split <;> rfl

theorem ReadFile_getenv (path : String) (w : World) :
    (os.ReadFile path w).2.getenv = w.getenv := by
  unfold os.ReadFile
  simp only
  split
  · rfl
  · split <;> rfl

theorem WriteFile_getenv (path data : String) (w : World) :
    (os.WriteFile path data w).2.getenv = w.getenv := by
  unfold os.WriteFile
  simp only
  split <;> rfl

theorem OpenFile_getenv (path : String) (w : World) :
    (os.OpenFile path w).2.getenv = w.getenv := by
  unfold os.OpenFile
  simp only
  split <;> rfl

theorem WriteString_getenv (path text : String) (w : World) :
    (os.WriteString path text w).2.getenv = w.getenv := by
  unfold os.WriteString
  simp only
  split <;> rfl

theorem setupEnvironment_getenv (w : World) :
    (setupEnvironment w).getenv "XDG_RUNTIME_DIR" = "/tmp" := by
  have hset : os.Setenv "XDG_RUNTIME_DIR" "/tmp" w
      = (none, { w.record (Effect.Setenv "XDG_RUNTIME_DIR" "/tmp") with
                 getenv := fun k => if k = "XDG_RUNTIME_DIR" then "/tmp" else w.getenv k }) := by
    unfold os.Setenv
    simp only
    rw [if_neg (by decide)]
  unfold setupEnvironment
  rw [hset]
  simp only
  have hstat := Stat_getenv "/tmp" { w.record (Effect.Setenv "XDG_RUNTIME_DIR" "/tmp") with
    getenv := fun k => if k = "XDG_RUNTIME_DIR" then "/tmp" else w.getenv k }
  rcases hs : os.Stat "/tmp" { w.record (Effect.Setenv "XDG_RUNTIME_DIR" "/tmp") with
    getenv := fun k => if k = "XDG_RUNTIME_DIR" then "/tmp" else w.getenv k } with ⟨⟨e, ne⟩, w2⟩
  rw [hs] at hstat
  simp only at hstat
  cases ne with
  | false =>
    simp only
    rw [hstat]
    rfl
  | true =>
    simp only
    have hmk := Mkdir_getenv "/tmp" w2
    rcases hm : os.Mkdir "/tmp" w2 with ⟨e3, w3⟩
    rw [hm] at hmk
    simp only at hmk
    cases e3 with
    | none =>
      simp only
      rw [hmk, hstat]
      rfl
    | some t =>
      simp only [log.Println, record_getenv]
      rw [hmk, hstat]
      rfl

theorem installLoop_getenv (l : List String) :
    ∀ w : World, (installLoop l w).2.getenv = w.getenv := by
  induction l with
  | nil => intro w; rfl
  | cons q rest ih =>
    intro w
    simp only [installLoop, exec.CombinedOutput]
    split
    · rfl
    · rw [ih]
      rfl

theorem copyConfig_getenv (w : World) : (copyConfig w).2.getenv = w.getenv := by
  unfold copyConfig
  simp only [os.UserHomeDir]
  have h1 := MkdirAll_getenv (filepath.Join [w.userHomeDir.1, ".config", "hypr"])
    (w.record Effect.UserHomeDir)
  rcases hm : os.MkdirAll (filepath.Join [w.userHomeDir.1, ".config", "hypr"])
    (w.record Effect.UserHomeDir) with ⟨e2, w2⟩
  rw [hm] at h1
  simp only [record_getenv] at h1
  cases e2 with
  | some t => exact h1
  | none =>
    simp only
    have h2 := ReadFile_getenv "hyprland.conf" w2
    rcases hr : os.ReadFile "hyprland.conf" w2 with ⟨⟨input, e3⟩, w3⟩
    rw [hr] at h2
    simp only at h2
    cases e3 with
    | some t => exact h2.trans h1
    | none =>
      simp only
      have h3 := WriteFile_getenv
        (filepath.Join [filepath.Join [w.userHomeDir.1, ".config", "hypr"], "hyprland.conf"]) input w3
      rcases hw : os.WriteFile
        (filepath.Join [filepath.Join [w.userHomeDir.1, ".config", "hypr"], "hyprland.conf"])
        input w3 with ⟨e4, w4⟩
      rw [hw] at h3
      simp only at h3
      cases e4 with
      | some t => exact h3.trans (h2.trans h1)
      | none => exact h3.trans (h2.trans h1)

theorem installPackagesOneByOne_getenv (w : World) :
    (installPackagesOneByOne w).2.getenv = w.getenv := by
  unfold installPackagesOneByOne
  have h1 := installLoop_getenv pkgs w
  rcases hl : installLoop pkgs w with ⟨r, w1⟩
  rw [hl] at h1
  simp only at h1
  cases r with
  | some msg => exact h1
  | none => exact (copyConfig_getenv w1).trans h1

theorem checkLoop_getenv (checks : List (World → statusMsg × World))
    (hc : ∀ c ∈ checks, ∀ w : World, (c w).2.getenv = w.getenv) :
    ∀ w : World, (checkLoop checks w).2.getenv = w.getenv := by
  induction checks with
  | nil => intro w; rfl
  | cons c rest ih =>
    intro w
    simp only [checkLoop]
    have h1 := hc c (List.mem_cons_self _ _) w
    rcases hr : c w with ⟨result, w1⟩
    rw [hr] at h1
    simp only at h1 ⊢
    split
    · exact h1
    · exact (ih (fun d hd => hc d (List.mem_cons_of_mem _ hd)) w1).trans h1

theorem troubleshootHyprland_getenv (w : World) :
    (troubleshootHyprland w).2.getenv = w.getenv := by
  unfold troubleshootHyprland
  apply checkLoop_getenv
  intro c hcmem w1
  simp only [List.mem_cons, List.mem_singleton, List.not_mem_nil, or_false] at hcmem
  rcases hcmem with rfl | rfl
  · simp only [checkHyprlandInstalled, exec.LookPath]
    split <;> rename_i heq <;> simp only [Prod.mk.injEq] at heq <;> obtain ⟨_, rfl⟩ := heq <;> rfl
  · simp only [checkXDGEnv, os.Getenv]
    split <;> rfl

theorem writeLoop_getenv (logFile : String) (l : List String) :
    ∀ w : World, (writeLoop logFile l w).2.getenv = w.getenv := by
  induction l with
  | nil => intro w; rfl
  | cons q rest ih =>
    intro w
    simp only [writeLoop]
    have h1 := WriteString_getenv logFile (q ++ "\n") w
    rcases hw : os.WriteString logFile (q ++ "\n") w with ⟨e, w1⟩
    rw [hw] at h1
    simp only at h1
    cases e with
    | some t => exact h1
    | none => exact (ih w1).trans h1

theorem saveLogsToFile_getenv (m : model) (w : World) :
    (saveLogsToFile m w).2.getenv = w.getenv := by
  unfold saveLogsToFile
  simp only [os.TempDir]
  have h1 := OpenFile_getenv (filepath.Join [w.tempDir, "hyprland_setup.log"])
    (w.record Effect.TempDir)
  rcases ho : os.OpenFile (filepath.Join [w.tempDir, "hyprland_setup.log"])
    (w.record Effect.TempDir) with ⟨e2, w2⟩
  rw [ho] at h1
  simp only [record_getenv] at h1
  cases e2 with
  | some t => exact h1
  | none =>
    simp only
    have h2 := writeLoop_getenv (filepath.Join [w.tempDir, "hyprland_setup.log"]) m.logs w2
    rcases hl : writeLoop (filepath.Join [w.tempDir, "hyprland_setup.log"]) m.logs w2 with ⟨r, w3⟩
    rw [hl] at h2
    simp only at h2
    cases r with
    | some msg => exact h2.trans h1
    | none => exact h2.trans h1

theorem perform_getenv (c : Cmd) (w : World) : (c.perform w).2.getenv = w.getenv := by
  cases c with
  | nil => rfl
  | Quit => rfl
  | installPackagesOneByOne => exact installPackagesOneByOne_getenv w
  | configureHyprland => rfl
  | troubleshootHyprland => exact troubleshootHyprland_getenv w
  | saveLogsToFile m => exact saveLogsToFile_getenv m w

theorem performAll_getenv (cmds : List Cmd) :
    ∀ w : World, (performAll cmds w).getenv = w.getenv := by
  induction cmds with
  | nil => intro w; rfl
  | cons c rest ih =>
    intro w
    simp only [performAll]
    exact (ih _).trans (perform_getenv c w)

theorem sessionWorld_getenv (cmds : List Cmd) (w : World) :
    (sessionWorld cmds w).getenv "XDG_RUNTIME_DIR" = "/tmp" := by
  unfold sessionWorld
  rw [performAll_getenv]
  exact setupEnvironment_getenv w

/-- C5, as amended.  In the program the environment check meets no mismatch:
`setupEnvironment` sets `XDG_RUNTIME_DIR` to "/tmp" before the session starts,
whatever the variable held, and no command changes it.  So for every starting
world and every sequence of commands performed since, when the troubleshoot
action runs with `Hyprland` resolvable on the search path, the environment check
returns "XDG_RUNTIME_DIR is correctly set to /tmp." with no error, the outcome
of the action is the final success status "No common issues found." with no
error, and `Update` appends that status to the session log. -/
theorem troubleshoot_in_session (w0 : World) (cmds : List Cmd)
    (h : ((sessionWorld cmds w0).lookPath "Hyprland").2 = none) :
    (sessionWorld cmds w0).getenv "XDG_RUNTIME_DIR" = "/tmp" ∧
    (checkXDGEnv (sessionWorld cmds w0)).1
        = { status := "XDG_RUNTIME_DIR is correctly set to /tmp.", err := none } ∧
    (troubleshootHyprland (sessionWorld cmds w0)).1
        = { status := "No common issues found.", err := none } ∧
    ∀ m : model,
      Update m (Msg.statusMsg (troubleshootHyprland (sessionWorld cmds w0)).1)
        = some ({ m with logs := m.logs ++ ["No common issues found."], isProcessing := false },
            Cmd.nil) := by
  have henv := sessionWorld_getenv cmds w0
  have hout := troubleshoot_found (sessionWorld cmds w0) h
  refine ⟨henv, ?_, by rw [hout], ?_⟩
  · simp only [checkXDGEnv, os.Getenv, henv]
    rfl
  · intro m
    rw [hout]
    exact Update_status m "No common issues found." none

theorem troubleshoot_in_session_witness :
    (((sessionWorld [Cmd.configureHyprland, Cmd.saveLogsToFile initialModel] loginWorld).lookPath
        "Hyprland").2 = none) ∧
    loginWorld.getenv "XDG_RUNTIME_DIR" = "/run/user/1001" ∧
    (sessionWorld [Cmd.configureHyprland, Cmd.saveLogsToFile initialModel] loginWorld).getenv
        "XDG_RUNTIME_DIR" = "/tmp" ∧
    (checkXDGEnv (sessionWorld [Cmd.configureHyprland, Cmd.saveLogsToFile initialModel]
        loginWorld)).1
        = { status := "XDG_RUNTIME_DIR is correctly set to /tmp.", err := none } ∧
    (troubleshootHyprland (sessionWorld [Cmd.configureHyprland, Cmd.saveLogsToFile initialModel]
        loginWorld)).1
        = { status := "No common issues found.", err := none } ∧
    ∀ m : model,
      Update m (Msg.statusMsg (troubleshootHyprland
          (sessionWorld [Cmd.configureHyprland, Cmd.saveLogsToFile initialModel] loginWorld)).1)
        = some ({ m with logs := m.logs ++ ["No common issues found."], isProcessing := false },
            Cmd.nil) :=
  ⟨by decide, by decide,
    troubleshoot_in_session loginWorld [Cmd.configureHyprland, Cmd.saveLogsToFile initialModel]
      (by decide)⟩

/-- C5, as stated, fails.  In the world `loginWorld`, where `Hyprland` is on the
search path and `XDG_RUNTIME_DIR` is "/run/user/1001", the environment check
builds the mismatch message with no error, yet the outcome of the troubleshoot
action is "No common issues found." alone: once `Update` has processed it the
session log holds that status and not the mismatch message.  The program
started in that world reports no mismatch either: after `setupEnvironment` the
variable is "/tmp", the check passes, and the log holds the final status
only. -/
theorem troubleshoot_mismatch_not_reported :
    (loginWorld.lookPath "Hyprland").2 = none ∧
    loginWorld.getenv "XDG_RUNTIME_DIR" ≠ "/tmp" ∧
    (checkXDGEnv loginWorld).1
        = { status := "XDG_RUNTIME_DIR is set to /run/user/1001, expected /tmp", err := none } ∧
    (troubleshootHyprland loginWorld).1 = { status := "No common issues found.", err := none } ∧
    (troubleshootHyprland loginWorld).2.trace
        = [Effect.LookPath "Hyprland", Effect.Getenv "XDG_RUNTIME_DIR"] ∧
    (Update initialModel (Msg.statusMsg (troubleshootHyprland loginWorld).1)).map
        (fun r => r.1.logs) = some ["No common issues found."] ∧
    "XDG_RUNTIME_DIR is set to /run/user/1001, expected /tmp" ∉
      ((Update initialModel (Msg.statusMsg (troubleshootHyprland loginWorld).1)).map
        (fun r => r.1.logs)).getD [] ∧
    (sessionWorld [] loginWorld).getenv "XDG_RUNTIME_DIR" = "/tmp" ∧
    (troubleshootHyprland (sessionWorld [] loginWorld)).1
        = { status := "No common issues found.", err := none } ∧
    (Update initialModel (Msg.statusMsg (troubleshootHyprland (sessionWorld [] loginWorld)).1)).map
        (fun r => r.1.logs) = some ["No common issues found."] := by
  decide

/-! ## The quit key -/

/-- C9, evaluated at the initial model: on "q" and on "ctrl+c" `Update` returns
the quit command and the model unchanged, so `quitting` is still false and the
text of the view is the title and the menu, without the notice "Exiting...";
on "enter" at "Exit" the flag is set and the view ends with the notice. -/
theorem quit_key_leaves_quitting_false :
    Update initialModel (Msg.KeyMsg "q") = some (initialModel, Cmd.Quit) ∧
    Update initialModel (Msg.KeyMsg "ctrl+c") = some (initialModel, Cmd.Quit) ∧
    initialModel.quitting = false ∧
    (∀ logStyle : String → String, viewText logStyle initialModel
        = "Hyprland Setup Assistant for FreeBSD\n\n> Install Hyprland\n  Configure Hyprland\n"
            ++ "  Troubleshoot\n  Save Logs\n  Exit\n") ∧
    (Update { initialModel with cursor := 4 } (Msg.KeyMsg "enter")).map (fun r => r.1.quitting)
        = some true ∧
    (∀ logStyle : String → String,
      (Update { initialModel with cursor := 4 } (Msg.KeyMsg "enter")).map
          (fun r => viewText logStyle r.1)
        = some ("Hyprland Setup Assistant for FreeBSD\n\n  Install Hyprland\n  Configure Hyprland\n"
            ++ "  Troubleshoot\n  Save Logs\n> Exit\n\nSelected: Exit\nProcessing\n\nExiting...")) := by
  refine ⟨by decide, by decide, rfl, fun _ => rfl, by decide, fun _ => rfl⟩

/-! ## The error text of a failed install -/

theorem skipFlags_length (f : List Char) : (fmt.skipFlags f).length ≤ f.length := by
  induction f with
  | nil => simp [fmt.skipFlags]
  | cons c cs ih =>
    unfold fmt.skipFlags
    split_ifs
    · exact Nat.le_succ_of_le ih
    · exact Nat.le_refl _

theorem parsenumLoop_length (f : List Char) :
    ∀ num isnum, (fmt.parsenumLoop f num isnum).2.2.length ≤ f.length := by
  induction f with
  | nil => intro num isnum; simp [fmt.parsenumLoop]
  | cons c cs ih =>
    intro num isnum
    unfold fmt.parsenumLoop
    split_ifs
    · simp
    · exact Nat.le_succ_of_le (ih _ _)
    · exact Nat.le_refl _

theorem parseArgNumber_length (f : List Char) :
    (fmt.parseArgNumber f).2.1.length ≤ f.length := by
  unfold fmt.parseArgNumber
  split_ifs
  · simp
  · simp only
    have hdw : ((f.drop 1).dropWhile fun c => c != ']').length ≤ f.length := by
      have h1 := (List.dropWhile_sublist (fun c => c != ']') (l := f.drop 1)).length_le
      have h2 : (f.drop 1).length ≤ f.length := by simp
      omega
    split
    · simp
    · rename_i x after heq
      rw [heq] at hdw
      have hlt : after.length ≤ f.length := by
        simp only [List.length_cons] at hdw
        omega
      split <;> exact hlt

theorem argNumber_length (a : Nat) (f : List Char) (n : Nat) :
    (fmt.argNumber a f n).2.1.length ≤ f.length := by
  unfold fmt.argNumber
  split
  · rename_i tl
    have h2 := parseArgNumber_length ('[' :: tl)
    split
    rename_i idx left ok heq
    rw [heq] at h2
    split_ifs <;> exact h2
  · exact Nat.le_refl _

theorem width_length (f : List Char) (b : Bool) : (fmt.width f b).2.1.length ≤ f.length := by
  unfold fmt.width
  split
  · simp
  · have h := parsenumLoop_length f 0 false
    unfold fmt.parsenum
    split
    rename_i x y rest heq
    rw [heq] at h
    exact h

theorem precision_length (a : Nat) (f : List Char) (b : Bool) :
    (fmt.precision a f b).2.1.length ≤ f.length := by
  unfold fmt.precision
  split
  · rename_i rest
    have h := argNumber_length a rest 0
    split
    rename_i x g found bad heq
    rw [heq] at h
    simp only at h
    split
    · rename_i rest1
      simp only [List.length_cons] at h ⊢
      omega
    · have h2 := parsenumLoop_length g 0 false
      unfold fmt.parsenum
      split
      rename_i x1 y1 rest1 heq1
      rw [heq1] at h2
      simp only [List.length_cons] at h2 ⊢
      omega
  · exact Nat.le_refl _

theorem verb_length (f : List Char) (good : Bool) (left : List Char)
    (h : (fmt.verb f good).2 = some left) : left.length < f.length := by
  unfold fmt.verb at h
  split at h
  · simp at h
  · split_ifs at h <;> simp at h <;> (subst h; simp)

theorem directive_length (f w left : List Char) (h : fmt.directive f = (w, some left)) :
    left.length < f.length := by
  have h2 : (fmt.directive f).2 = some left := by rw [h]
  unfold fmt.directive at h2
  refine Nat.lt_of_lt_of_le (verb_length _ _ _ h2) ?_
  have hpre : ∀ a b, (fmt.precision a (fmt.width (fmt.argNumber 0 (fmt.skipFlags f) 0).2.1 b).2.1
      (fmt.width (fmt.argNumber 0 (fmt.skipFlags f) 0).2.1 b).2.2.1).2.1.length ≤ f.length :=
    fun a b => Nat.le_trans (precision_length _ _ _) (Nat.le_trans (width_length _ _)
      (Nat.le_trans (argNumber_length _ _ _) (skipFlags_length f)))
  split_ifs
  · exact Nat.le_trans (argNumber_length _ _ _) (hpre _ _)
  · exact hpre _ _

/-- The fuel of `formatLoop` is enough above the length of the format: the
result is the same for every such fuel. -/
theorem formatLoop_fuel (n : Nat) :
    ∀ (m : Nat) (f : List Char), f.length < n → f.length < m →
      fmt.formatLoop n f = fmt.formatLoop m f := by
  induction n with
  | zero => intro m f h; omega
  | succ n ih =>
    intro m f hn hm
    cases m with
    | zero => omega
    | succ m =>
      unfold fmt.formatLoop
      simp only
      have hdw := (List.dropWhile_sublist (fun c => c != '%') (l := f)).length_le
      split
      · rfl
      · rename_i x rest heq
        rw [heq] at hdw
        simp only [List.length_cons] at hdw
        rcases hd : fmt.directive rest with ⟨written, _ | left⟩
        · rfl
        · have hl := directive_length rest written left hd
          simp only
          rw [ih m left (by omega) (by omega)]

theorem takeWhile_plain (l : List Char) (h : '%' ∉ l) :
    l.takeWhile (fun c => c != '%') = l ∧ l.dropWhile (fun c => c != '%') = [] := by
  induction l with
  | nil => exact ⟨rfl, rfl⟩
  | cons c cs ih =>
    have hc : c ≠ '%' := fun hc => h (by rw [hc]; exact List.mem_cons_self _ _)
    have hcs : '%' ∉ cs := fun hm => h (List.mem_cons_of_mem _ hm)
    have hb : (c != '%') = true := by simp [hc]
    obtain ⟨h1, h2⟩ := ih hcs
    exact ⟨by rw [List.takeWhile_cons, hb]; simp [h1], by rw [List.dropWhile_cons, hb]; simp [h2]⟩

/-- A format without `%` is written as it is: the output of a failed command
that holds no `%` is the text of the error. -/
theorem Sprintf_plain (out : String) (h : '%' ∉ out.toList) : fmt.Sprintf out = out := by
  obtain ⟨h1, h2⟩ := takeWhile_plain out.toList h
  unfold fmt.Sprintf
  simp only [fmt.formatLoop, h1, h2]
  rfl

/-- C10, evaluated where the install command of the first package fails: with
the combined output "pkg: repository FreeBSD update failed at 100%" the error of
the outcome has the text "...100%!(NOVERB)", and with a fetch progress line
"Fetching meta.conf: 100%    178 B ..." it has "...100%! (MISSING)B ...": the
output is read as a format, and the error line that `Update` appends to the
log is not "Error: " followed by the output. -/
theorem install_error_reads_output_as_format :
    (installPackagesOneByOne
        (failingWorld "hyprland" "pkg: repository FreeBSD update failed at 100%")).1
      = { status := "Failed to install hyprland",
          err := some "pkg: repository FreeBSD update failed at 100%!(NOVERB)" } ∧
    (Update initialModel (Msg.statusMsg (installPackagesOneByOne
        (failingWorld "hyprland" "pkg: repository FreeBSD update failed at 100%")).1)).map
        (fun r => r.1.logs)
      = some ["Failed to install hyprland",
              "Error: pkg: repository FreeBSD update failed at 100%!(NOVERB)"] ∧
    "Error: pkg: repository FreeBSD update failed at 100%!(NOVERB)"
      ≠ "Error: " ++ "pkg: repository FreeBSD update failed at 100%" ∧
    (installPackagesOneByOne
        (failingWorld "hyprland"
          "Fetching meta.conf: 100%    178 B   0.2kB/s    00:01\npkg: No packages available\n")).1
      = { status := "Failed to install hyprland",
          err := some "Fetching meta.conf: 100%! (MISSING)B   0.2kB/s    00:01\npkg: No packages available\n" } := by
  decide

end HyprSetup
